import Mathlib

/-!
# Verification of the fwautomation Terraform provider

Shallow embedding of `provider.go` and `resource_firewall_group.go` of the
`terraform-provider-fwautomation` repository, together with theorems checking
the natural-language specification against this embedding.

Effectful Go code (file reads, SSH dialing, session handling) is embedded as
pure functions over an explicit environment `Env` that fixes the outcome of
every external effect, and every operation additionally returns the ordered
trace of effect events it performed.
-/

namespace Fwautomation

/-! ## Data model (provider.go) -/

/-- `ManagementConfig` from provider.go: the provider-level configuration
struct with the management server address, the domain and the path of the
SSH private key. -/
structure ManagementConfig where
  Server : String
  Domain : String
  AuthenticationKeyPath : String
deriving DecidableEq, Repr

/-- `providerConfigure` (provider.go): builds the `ManagementConfig` from the
three provider fields `management_server`, `domain`,
`authentication_key_path`. -/
def providerConfigure (server domain authKeyPath : String) : ManagementConfig :=
  { Server := server, Domain := domain, AuthenticationKeyPath := authKeyPath }

/-- The locally stored state of one `fwautomation_fwgroup` resource instance:
the three schema fields plus the Terraform resource id (`d.Id()`,
set via `d.SetId`). -/
structure ResourceData where
  group_name : String
  hostname : String
  ip_address : String
  id : String
deriving DecidableEq, Repr

/-! ## Command generation (resource_firewall_group.go, generateCommand) -/

/-- `generateCommand` from resource_firewall_group.go: builds the remote
shell command for the given method, or an error for an unsupported method. -/
def generateCommand (d : ResourceData) (method : String) : Except String String :=
  if method = "add" ∨ method = "remove" then
    Except.ok ("modify group group=" ++ d.group_name ++ " hostname=" ++ d.hostname
      ++ " ip=" ++ d.ip_address ++ " method=" ++ method)
  else if method = "read" then
    Except.ok ("show group group=" ++ d.group_name)
  else
    Except.error ("method not supported: " ++ method)

/-! ## Field validators (resource_firewall_group.go, schema ValidateFunc) -/

/-- Character class `[A-Z]` ∪ `[_]` of the group_name regex. -/
def isGroupNameChar (c : Char) : Bool :=
  (decide ('A' ≤ c) && decide (c ≤ 'Z')) || c == '_'

/-- Character class `[a-z\.-]` of the hostname regex. -/
def isHostnameChar (c : Char) : Bool :=
  (decide ('a' ≤ c) && decide (c ≤ 'z')) || c == '.' || c == '-'

/-- The character class `\d` = `[0-9]`. -/
def isDigitChar (c : Char) : Bool :=
  decide ('0' ≤ c) && decide (c ≤ '9')

/-- Language of the anchored Go regex `^[A-Z_]+$` used by the group_name
validator: a non-empty string of uppercase letters and underscores. -/
def groupNameRegexMatch (s : String) : Bool :=
  !s.data.isEmpty && s.data.all isGroupNameChar

/-- Language of the anchored Go regex `^[a-z\.-]+$` used by the hostname
validator: a non-empty string of lowercase letters, periods and hyphens. -/
def hostnameRegexMatch (s : String) : Bool :=
  !s.data.isEmpty && s.data.all isHostnameChar

/-- One step of the regex `\d+\.`: greedily consume a non-empty digit run
followed by a literal period, returning the remaining input (greedy matching
is exact here because `.` is not a digit). -/
def matchDigitsDot (l : List Char) : Option (List Char) :=
  let ds := l.takeWhile isDigitChar
  let rest := l.dropWhile isDigitChar
  if ds.isEmpty then none
  else
    match rest with
    | '.' :: t => some t
    | _ => none

/-- Language of the anchored Go regex `^\d+\.\d+\.\d+\.\d+$` used by the
ip_address validator: four non-empty digit runs separated by periods. -/
def ipRegexMatch (s : String) : Bool :=
  match matchDigitsDot s.data with
  | none => false
  | some r1 =>
    match matchDigitsDot r1 with
    | none => false
    | some r2 =>
      match matchDigitsDot r2 with
      | none => false
      | some r3 => !r3.isEmpty && r3.all isDigitChar

/-- Go's `%q` verb: the key rendered in double quotes (escaping inside the
key does not matter for any claim). -/
def quoteStr (s : String) : String := "\"" ++ s ++ "\""

/-- The group_name `ValidateFunc`: returns the `(warns, errs)` pair. -/
def groupNameValidateFunc (val key : String) : List String × List String :=
  if groupNameRegexMatch val then ([], [])
  else ([], [quoteStr key ++ " only allows uppercase letters and underscores: " ++ val])

/-- The hostname `ValidateFunc`: returns the `(warns, errs)` pair. -/
def hostnameValidateFunc (val key : String) : List String × List String :=
  if hostnameRegexMatch val then ([], [])
  else ([], [quoteStr key ++ " must be a fully qualified domain name and only contain lowercase letters, periods, and hyphens: " ++ val])

/-- The ip_address `ValidateFunc`: returns the `(warns, errs)` pair. -/
def ipAddressValidateFunc (val key : String) : List String × List String :=
  if ipRegexMatch val then ([], [])
  else ([], [quoteStr key ++ " must be a valid IP address: " ++ val])

/-! ## Spec-side formats (from the claim wording, for comparison with the
validators embedded from the source) -/

/-- Spec-side format for group_name: a string matching `[A-Z_]+`. -/
def GroupNameConforming (s : String) : Prop :=
  s.data ≠ [] ∧ ∀ c ∈ s.data, ('A' ≤ c ∧ c ≤ 'Z') ∨ c = '_'

/-- Spec-side format for hostname: a string matching `[a-z.-]+`. -/
def HostnameConforming (s : String) : Prop :=
  s.data ≠ [] ∧ ∀ c ∈ s.data, ('a' ≤ c ∧ c ≤ 'z') ∨ c = '.' ∨ c = '-'

instance (s : String) : Decidable (GroupNameConforming s) := by
  unfold GroupNameConforming; infer_instance

instance (s : String) : Decidable (HostnameConforming s) := by
  unfold HostnameConforming; infer_instance

/-- Spec-side format for ip_address: a dotted-quad of digit runs, i.e. the
characters decompose as `a.b.c.d` with `a`, `b`, `c`, `d` non-empty runs of
decimal digits. -/
def IpConforming (s : String) : Prop :=
  ∃ a b c d : List Char,
    a ≠ [] ∧ b ≠ [] ∧ c ≠ [] ∧ d ≠ [] ∧
    (∀ x ∈ a, isDigitChar x = true) ∧ (∀ x ∈ b, isDigitChar x = true) ∧
    (∀ x ∈ c, isDigitChar x = true) ∧ (∀ x ∈ d, isDigitChar x = true) ∧
    s.data = a ++ '.' :: b ++ '.' :: c ++ '.' :: d

/-! ## SSH client model (golang.org/x/crypto/ssh, as used by the source) -/

/-- A parsed private-key signer (`ssh.Signer`), abstracted to the bytes that
identify it. -/
structure Signer where
  raw : List Nat
deriving DecidableEq, Repr

/-- `ssh.AuthMethod`: the source only ever uses `ssh.PublicKeys(signer)`. -/
inductive AuthMethod where
  | publicKeys (signer : Signer)
deriving DecidableEq, Repr

/-- `ssh.HostKeyCallback`: either the verification-disabling
`ssh.InsecureIgnoreHostKey()` or a verifying callback pinned to a key. -/
inductive HostKeyCallback where
  | insecureIgnoreHostKey
  | fixedHostKey (key : List Nat)
deriving DecidableEq, Repr

/-- `ssh.ClientConfig` with the fields the source sets: user, auth methods,
host-key callback and dial timeout (in seconds). -/
structure SSHClientConfig where
  user : String
  auth : List AuthMethod
  hostKeyCallback : HostKeyCallback
  timeoutSeconds : Nat
deriving DecidableEq, Repr

/-- An established `ssh.Client`, remembering how it was dialed. -/
structure SSHClient where
  cfg : SSHClientConfig
  addr : String
deriving DecidableEq, Repr

/-! ## Effect events and the environment -/

/-- The kinds of external effects a CRUD operation can perform. -/
inductive EventKind where
  | readKeyFile | parseKey | dial | newSession | genCommand
  | startCmd | waitCmd | closeSession | closeClient
deriving DecidableEq, Repr

/-- One external effect, with its arguments. -/
inductive Event where
  | readKeyFile (path : String)
  | parseKey (keyBytes : List Nat)
  | dial (network : String) (addr : String) (cfg : SSHClientConfig)
  | newSession
  | genCommand (method : String)
  | startCmd (cmd : String)
  | waitCmd
  | closeSession
  | closeClient
deriving DecidableEq, Repr

/-- The kind of an event. -/
def Event.kind : Event → EventKind
  | .readKeyFile _ => .readKeyFile
  | .parseKey _ => .parseKey
  | .dial _ _ _ => .dial
  | .newSession => .newSession
  | .genCommand _ => .genCommand
  | .startCmd _ => .startCmd
  | .waitCmd => .waitCmd
  | .closeSession => .closeSession
  | .closeClient => .closeClient

/-- The environment fixing the outcome of every external effect of one run:
file contents, key parsing, dial/session/start/wait outcomes (`none` means
success, `some e` failure with error text `e`), captured output buffers, and
the entropy consumed by `uuid.NewString()`. -/
structure Env where
  readFile : String → Except String (List Nat)
  parsePrivateKey : List Nat → Except String Signer
  dialOk : String → Option String
  newSessionOk : Option String
  startOk : String → Option String
  waitOk : Option String
  stdoutContent : String
  stderrContent : String
  uuidEntropy : Fin 16 → Nat

/-! ## uuid.NewString (external google/uuid library) -/

/-- One hexadecimal digit character (for `n < 16`). -/
def hexChar (n : Nat) : Char :=
  if n < 10 then Char.ofNat (48 + n) else Char.ofNat (87 + n % 16)

/-- Two lowercase hex digits of one byte. -/
def byteToHex (b : Nat) : String :=
  String.mk [hexChar (b / 16 % 16), hexChar (b % 16)]

/-- Modelled from the external google/uuid library: `uuid.NewString()` draws
16 random bytes, forces the version-4 and variant bits, and renders the
canonical hyphenated 8-4-4-4-12 lowercase hex form. -/
def uuidNewString (entropy : Fin 16 → Nat) : String :=
  let b : Fin 16 → Nat := fun i =>
    if i.val = 6 then entropy i % 16 + 64
    else if i.val = 8 then entropy i % 64 + 128
    else entropy i % 256
  byteToHex (b 0) ++ byteToHex (b 1) ++ byteToHex (b 2) ++ byteToHex (b 3) ++ "-"
    ++ byteToHex (b 4) ++ byteToHex (b 5) ++ "-"
    ++ byteToHex (b 6) ++ byteToHex (b 7) ++ "-"
    ++ byteToHex (b 8) ++ byteToHex (b 9) ++ "-"
    ++ byteToHex (b 10) ++ byteToHex (b 11) ++ byteToHex (b 12)
    ++ byteToHex (b 13) ++ byteToHex (b 14) ++ byteToHex (b 15)

/-! ## SSH connection setup (resource_firewall_group.go, setupSSHConnection) -/

/-- The dial address computed inside `setupSSHConnection`: the configured
server, with `":22"` appended when it does not already contain a colon
(`strings.Contains(serverAddress, ":")`, embedded as membership of the colon
character in the string's characters). -/
def dialAddress (server : String) : String :=
  if server.data.contains ':' then server else server ++ ":22"

/-- `setupSSHConnection` from resource_firewall_group.go: read the private
key file, parse it, build the client config (user "automate", public-key
auth, host-key verification disabled, 5 second timeout) and dial TCP.
Returns the result and the trace of effects performed. -/
def setupSSHConnection (env : Env) (config : ManagementConfig) :
    Except String SSHClient × List Event :=
  match env.readFile config.AuthenticationKeyPath with
  | .error e =>
    (Except.error ("failed to load private key: " ++ e),
      [.readKeyFile config.AuthenticationKeyPath])
  | .ok key =>
    match env.parsePrivateKey key with
    | .error e =>
      (Except.error ("failed to parse private key: " ++ e),
        [.readKeyFile config.AuthenticationKeyPath, .parseKey key])
    | .ok signer =>
      let sshConfig : SSHClientConfig :=
        { user := "automate"
          auth := [.publicKeys signer]
          hostKeyCallback := .insecureIgnoreHostKey
          timeoutSeconds := 5 }
      let serverAddress := dialAddress config.Server
      match env.dialOk serverAddress with
      | some e =>
        (Except.error e,
          [.readKeyFile config.AuthenticationKeyPath, .parseKey key,
            .dial "tcp" serverAddress sshConfig])
      | none =>
        (Except.ok { cfg := sshConfig, addr := serverAddress },
          [.readKeyFile config.AuthenticationKeyPath, .parseKey key,
            .dial "tcp" serverAddress sshConfig])

/-! ## Remote command execution (runResourceFirewallGroupsTask) -/

/-- `runResourceFirewallGroupsTask` from resource_firewall_group.go: open a
session on the client, build the command for the method, start it and wait
for completion; the deferred `session.Close()` runs on every path after the
session was created. Returns the result and the trace of effects. -/
def runResourceFirewallGroupsTask (env : Env) (client : SSHClient)
    (d : ResourceData) (method : String) : Except String Unit × List Event :=
  match env.newSessionOk with
  | some e => (Except.error ("error creating SSH session: " ++ e), [.newSession])
  | none =>
    match generateCommand d method with
    | .error e =>
      (Except.error ("error executing command: " ++ e),
        [.newSession, .genCommand method, .closeSession])
    | .ok cmd =>
      match env.startOk cmd with
      | some e =>
        (Except.error ("error starting command: " ++ e ++ ", stderr: "
            ++ env.stderrContent ++ ", stdout: " ++ env.stdoutContent),
          [.newSession, .genCommand method, .startCmd cmd, .closeSession])
      | none =>
        match env.waitOk with
        | some e =>
          (Except.error ("error waiting for command completion: " ++ e ++ ", stderr: "
              ++ env.stderrContent ++ ", stdout: " ++ env.stdoutContent),
            [.newSession, .genCommand method, .startCmd cmd, .waitCmd, .closeSession])
        | none =>
          (Except.ok (),
            [.newSession, .genCommand method, .startCmd cmd, .waitCmd, .closeSession])

/-! ## CRUD entry points -/

/-- Terraform diagnostics: each `diag.FromErr(err)` contributes one
diagnostic carrying the error message. -/
def Diagnostics := List String

/-- `resourceFirewallGroupCreate`: connect, run the "add" command, and on
success set the id to a fresh `uuid.NewString()`. The deferred
`client.Close()` runs on every path after the client was opened. Returns
(diagnostics, final resource state, effect trace). -/
def resourceFirewallGroupCreate (env : Env) (config : ManagementConfig)
    (d : ResourceData) : List String × ResourceData × List Event :=
  match setupSSHConnection env config with
  | (.error e, tr) => ([e], d, tr)
  | (.ok client, tr) =>
    match runResourceFirewallGroupsTask env client d "add" with
    | (.error e, tr2) => ([e], d, tr ++ tr2 ++ [.closeClient])
    | (.ok _, tr2) =>
      ([], { d with id := uuidNewString env.uuidEntropy }, tr ++ tr2 ++ [.closeClient])

/-- `resourceFirewallGroupRead`: connect and run the "read" command; the
resource state is never written. -/
def resourceFirewallGroupRead (env : Env) (config : ManagementConfig)
    (d : ResourceData) : List String × ResourceData × List Event :=
  match setupSSHConnection env config with
  | (.error e, tr) => ([e], d, tr)
  | (.ok client, tr) =>
    match runResourceFirewallGroupsTask env client d "read" with
    | (.error e, tr2) => ([e], d, tr ++ tr2 ++ [.closeClient])
    | (.ok _, tr2) => ([], d, tr ++ tr2 ++ [.closeClient])

/-- `resourceFirewallGroupDelete`: connect and run the "remove" command, and
on success clear the id (`d.SetId("")`). -/
def resourceFirewallGroupDelete (env : Env) (config : ManagementConfig)
    (d : ResourceData) : List String × ResourceData × List Event :=
  match setupSSHConnection env config with
  | (.error e, tr) => ([e], d, tr)
  | (.ok client, tr) =>
    match runResourceFirewallGroupsTask env client d "remove" with
    | (.error e, tr2) => ([e], d, tr ++ tr2 ++ [.closeClient])
    | (.ok _, tr2) => ([], { d with id := "" }, tr ++ tr2 ++ [.closeClient])

/-- The CRUD entry points registered on the resource (there is no update
handler in the source). -/
inductive CrudOp where
  | create | read | delete
deriving DecidableEq, Repr

/-- The method string each CRUD entry point passes to
`runResourceFirewallGroupsTask`. -/
def CrudOp.method : CrudOp → String
  | .create => "add"
  | .read => "read"
  | .delete => "remove"

/-- Dispatch to the CRUD entry point of an operation. -/
def runCrud (op : CrudOp) (env : Env) (config : ManagementConfig)
    (d : ResourceData) : List String × ResourceData × List Event :=
  match op with
  | .create => resourceFirewallGroupCreate env config d
  | .read => resourceFirewallGroupRead env config d
  | .delete => resourceFirewallGroupDelete env config d

/-- The diagnostics of one CRUD run. -/
def crudDiags (op : CrudOp) (env : Env) (config : ManagementConfig)
    (d : ResourceData) : List String :=
  (runCrud op env config d).1

/-- The final resource state of one CRUD run. -/
def crudState (op : CrudOp) (env : Env) (config : ManagementConfig)
    (d : ResourceData) : ResourceData :=
  (runCrud op env config d).2.1

/-- The effect trace of one CRUD run. -/
def crudTrace (op : CrudOp) (env : Env) (config : ManagementConfig)
    (d : ResourceData) : List Event :=
  (runCrud op env config d).2.2

/-! ## Resource and provider registration -/

/-- A reference to one of the Go handler functions. -/
inductive HandlerRef where
  | createHandler | readHandler | deleteHandler
deriving DecidableEq, Repr

/-- One field of the resource schema: the `Required` and `ForceNew` flags and
the `ValidateFunc`. -/
structure FieldSchema where
  required : Bool
  forceNew : Bool
  validateFunc : String → String → List String × List String

/-- The resource descriptor: which lifecycle handlers are registered
(`none` embeds the nil Go zero value of an omitted field) and the schema. -/
structure ResourceSpec where
  createContext : Option HandlerRef
  readContext : Option HandlerRef
  updateContext : Option HandlerRef
  deleteContext : Option HandlerRef
  schemaFields : List (String × FieldSchema)

/-- `resourceFirewallGroup` from resource_firewall_group.go: the
`schema.Resource` literal. It sets `CreateContext`, `ReadContext` and
`DeleteContext`; `UpdateContext` is absent, so it is Go's nil zero value. -/
def resourceFirewallGroupResource : ResourceSpec :=
  { createContext := some .createHandler
    readContext := some .readHandler
    updateContext := none
    deleteContext := some .deleteHandler
    schemaFields :=
      [("group_name", { required := true, forceNew := true, validateFunc := groupNameValidateFunc }),
       ("hostname", { required := true, forceNew := true, validateFunc := hostnameValidateFunc }),
       ("ip_address", { required := true, forceNew := true, validateFunc := ipAddressValidateFunc })] }

/-- `Provider().ResourcesMap` from provider.go. -/
def providerResourcesMap : List (String × ResourceSpec) :=
  [("fwautomation_fwgroup", resourceFirewallGroupResource)]

/-! ## Concrete fixtures used by witnesses and counterexamples -/

/-- An environment in which every external effect succeeds. -/
def envAllOk : Env :=
  { readFile := fun _ => Except.ok [1]
    parsePrivateKey := fun _ => Except.ok ⟨[2]⟩
    dialOk := fun _ => none
    newSessionOk := none
    startOk := fun _ => none
    waitOk := none
    stdoutContent := ""
    stderrContent := ""
    uuidEntropy := fun _ => 0 }

/-- An environment in which reading the key file fails. -/
def envReadFail : Env :=
  { envAllOk with readFile := fun _ => Except.error "boom" }

/-- A sample provider configuration. -/
def configEx : ManagementConfig :=
  { Server := "fw.example.com", Domain := "corp.example.com",
    AuthenticationKeyPath := "/etc/fw/id_ed25519" }

/-- `configEx` with only the Domain changed. -/
def configDomainB : ManagementConfig :=
  { configEx with Domain := "other.example.net" }

/-- A sample resource state. -/
def dEx : ResourceData :=
  { group_name := "WEB_SERVERS", hostname := "host.example.com",
    ip_address := "10.0.0.1", id := "" }

/-! ## Theorems -/

/-- C1: for a resource with fields group_name=N, hostname=H, ip_address=I,
`generateCommand` with method "add" (resp. "remove") returns exactly
`modify group group=N hostname=H ip=I method=add` (resp. `method=remove`),
and with method "read" returns exactly `show group group=N`. -/
theorem generateCommand_exact_strings (N H I ident : String) :
    generateCommand ⟨N, H, I, ident⟩ "add" =
      Except.ok ("modify group group=" ++ N ++ " hostname=" ++ H ++ " ip=" ++ I
        ++ " method=add")
  ∧ generateCommand ⟨N, H, I, ident⟩ "remove" =
      Except.ok ("modify group group=" ++ N ++ " hostname=" ++ H ++ " ip=" ++ I
        ++ " method=remove")
  ∧ generateCommand ⟨N, H, I, ident⟩ "read" =
      Except.ok ("show group group=" ++ N) := by
  refine ⟨?_, ?_, ?_⟩ <;> simp [generateCommand, String.append_assoc]

/-- C8: the address dialed by `setupSSHConnection` is the configured server
with ":22" appended exactly when the server string contains no colon. -/
theorem setupSSHConnection_dial_address (env : Env) (config : ManagementConfig) :
    (∀ n a c, Event.dial n a c ∈ (setupSSHConnection env config).2 →
      a = dialAddress config.Server)
  ∧ (config.Server.data.contains ':' = false →
      dialAddress config.Server = config.Server ++ ":22")
  ∧ (config.Server.data.contains ':' = true →
      dialAddress config.Server = config.Server) := by
  refine ⟨?_, ?_, ?_⟩
  · intro n a c hmem
    simp only [setupSSHConnection] at hmem
    split at hmem
    · simp at hmem
    · split at hmem
      · simp at hmem
      · split at hmem <;> simp_all
  · intro h; simp at h; simp [dialAddress, h]
  · intro h; simp at h; simp [dialAddress, h]

/-- Witness for C8 at a concrete run: the all-success environment dials
`"fw.example.com:22"` for the server `"fw.example.com"` (no colon). -/
theorem setupSSHConnection_dial_address_witness :
    (Event.dial "tcp" "fw.example.com:22"
        { user := "automate", auth := [.publicKeys ⟨[2]⟩],
          hostKeyCallback := .insecureIgnoreHostKey, timeoutSeconds := 5 }
      ∈ (setupSSHConnection envAllOk configEx).2)
  ∧ "fw.example.com:22" = dialAddress configEx.Server
  ∧ configEx.Server.data.contains ':' = false
  ∧ dialAddress configEx.Server = configEx.Server ++ ":22" := by
  refine ⟨by decide, ?_, by decide, ?_⟩
  · exact (setupSSHConnection_dial_address envAllOk configEx).1 "tcp" "fw.example.com:22"
      { user := "automate", auth := [.publicKeys ⟨[2]⟩],
        hostKeyCallback := .insecureIgnoreHostKey, timeoutSeconds := 5 } (by decide)
  · exact (setupSSHConnection_dial_address envAllOk configEx).2.1 (by decide)

/-- The Domain field of the configuration never enters `setupSSHConnection`. -/
theorem setupSSHConnection_domain_irrel (env : Env) (s dom1 dom2 p : String) :
    setupSSHConnection env ⟨s, dom1, p⟩ = setupSSHConnection env ⟨s, dom2, p⟩ := rfl

/-- C9: two provider configurations that differ only in Domain produce
identical CRUD behaviour: same diagnostics, same final state, and the same
effect trace (hence the same dial address, SSH client configuration and
command string). -/
theorem domain_noninterference (op : CrudOp) (env : Env) (c1 c2 : ManagementConfig)
    (d : ResourceData) (hs : c1.Server = c2.Server)
    (hk : c1.AuthenticationKeyPath = c2.AuthenticationKeyPath) :
    runCrud op env c1 d = runCrud op env c2 d := by
  obtain ⟨s1, dom1, p1⟩ := c1
  obtain ⟨s2, dom2, p2⟩ := c2
  obtain rfl : s1 = s2 := hs
  obtain rfl : p1 = p2 := hk
  cases op <;>
    simp only [runCrud, resourceFirewallGroupCreate, resourceFirewallGroupRead,
      resourceFirewallGroupDelete, setupSSHConnection_domain_irrel env s1 dom1 dom2 p1]

/-- Witness for C9 at concrete configurations differing only in Domain. -/
theorem domain_noninterference_witness :
    configEx.Server = configDomainB.Server
  ∧ configEx.AuthenticationKeyPath = configDomainB.AuthenticationKeyPath
  ∧ configEx.Domain ≠ configDomainB.Domain
  ∧ runCrud CrudOp.create envAllOk configEx dEx
      = runCrud CrudOp.create envAllOk configDomainB dEx :=
  ⟨rfl, rfl, by decide,
    domain_noninterference CrudOp.create envAllOk configEx configDomainB dEx rfl rfl⟩

/-- C10: `resourceFirewallGroupRead` never modifies the locally stored
resource state: for every environment (the remote command succeeding or
failing, with arbitrary captured stdout), the state — group_name, hostname,
ip_address and id — is returned unchanged, so the remote stdout is never
parsed into fields. -/
theorem read_preserves_state (env : Env) (config : ManagementConfig) (d : ResourceData) :
    (resourceFirewallGroupRead env config d).2.1 = d := by
  unfold resourceFirewallGroupRead
  rcases hs : setupSSHConnection env config with ⟨res, tr⟩
  cases res with
  | error e => simp
  | ok client =>
    rcases ht : runResourceFirewallGroupsTask env client d "read" with ⟨res2, tr2⟩
    cases res2 <;> simp [ht]

/-- A byte renders as exactly two hex characters. -/
lemma byteToHex_length (b : Nat) : (byteToHex b).length = 2 := rfl

/-- `uuid.NewString()` always renders 36 characters. -/
lemma uuidNewString_length (e : Fin 16 → Nat) : (uuidNewString e).length = 36 := by
  simp [uuidNewString, String.length_append, byteToHex_length,
    show ("-" : String).length = 1 from rfl]

/-- `uuid.NewString()` is never the empty string. -/
lemma uuidNewString_ne_empty (e : Fin 16 → Nat) : uuidNewString e ≠ "" := by
  intro h
  have h36 := uuidNewString_length e
  rw [h] at h36
  simp at h36

/-- C4: Create assigns the identity only on successful creation. On success
the id becomes the freshly generated `uuid.NewString()` value — a non-empty
identifier computed from the entropy source alone, hence identical for any
two resources created under the same environment regardless of group_name,
hostname or ip_address — and on any failure the state (id included) is
returned unchanged. -/
theorem create_id_on_success (env : Env) (config : ManagementConfig) (d d' : ResourceData) :
    (crudDiags CrudOp.create env config d = [] →
      crudState CrudOp.create env config d = { d with id := uuidNewString env.uuidEntropy })
  ∧ uuidNewString env.uuidEntropy ≠ ""
  ∧ (crudDiags CrudOp.create env config d = [] → crudDiags CrudOp.create env config d' = [] →
      (crudState CrudOp.create env config d).id = (crudState CrudOp.create env config d').id)
  ∧ (crudDiags CrudOp.create env config d ≠ [] → crudState CrudOp.create env config d = d) := by
  have main : ∀ dd : ResourceData,
      (crudDiags CrudOp.create env config dd = [] →
        crudState CrudOp.create env config dd = { dd with id := uuidNewString env.uuidEntropy })
      ∧ (crudDiags CrudOp.create env config dd ≠ [] →
        crudState CrudOp.create env config dd = dd) := by
    intro dd
    simp only [crudDiags, crudState, runCrud]
    unfold resourceFirewallGroupCreate
    rcases hs : setupSSHConnection env config with ⟨res, tr⟩
    cases res with
    | error e => simp
    | ok client =>
      rcases ht : runResourceFirewallGroupsTask env client dd "add" with ⟨res2, tr2⟩
      cases res2 <;> simp [ht]
  refine ⟨(main d).1, uuidNewString_ne_empty env.uuidEntropy, ?_, (main d).2⟩
  intro h1 h2
  rw [(main d).1 h1, (main d').1 h2]

/-- Witness for C4: a successful concrete creation, with the id set to the
generated identifier. -/
theorem create_id_on_success_witness :
    crudDiags CrudOp.create envAllOk configEx dEx = []
  ∧ crudState CrudOp.create envAllOk configEx dEx
      = { dEx with id := uuidNewString envAllOk.uuidEntropy } :=
  ⟨rfl, (create_id_on_success envAllOk configEx dEx dEx).1 rfl⟩

/-- C5 counterexample: the resource registers no update handler — the
`schema.Resource` literal sets no `UpdateContext`, so it is Go's nil zero
value; the claim that the resource exposes the Update entry point is false. -/
theorem resource_no_update_handler :
    ¬ resourceFirewallGroupResource.updateContext.isSome = true := by decide

/-- C5 (amended): the resource `fwautomation_fwgroup` exposes exactly the
Create, Read and Delete entry points (no Update handler is registered —
updates are impossible anyway because every field forces replacement), and
all three fields group_name, hostname, ip_address are required and
immutable (ForceNew). -/
theorem resource_lifecycle_and_schema :
    ("fwautomation_fwgroup", resourceFirewallGroupResource) ∈ providerResourcesMap
  ∧ resourceFirewallGroupResource.createContext = some HandlerRef.createHandler
  ∧ resourceFirewallGroupResource.readContext = some HandlerRef.readHandler
  ∧ resourceFirewallGroupResource.deleteContext = some HandlerRef.deleteHandler
  ∧ resourceFirewallGroupResource.updateContext = none
  ∧ resourceFirewallGroupResource.schemaFields.map Prod.fst
      = ["group_name", "hostname", "ip_address"]
  ∧ (resourceFirewallGroupResource.schemaFields.all
      fun f => f.2.required && f.2.forceNew) = true := by
  refine ⟨?_, rfl, rfl, rfl, rfl, rfl, rfl⟩
  unfold providerResourcesMap
  exact List.Mem.head _

/-- C7 counterexample: in a concrete all-success creation, the SSH dial is
the third effect (index 2) while the command string is only built as the
fifth effect (index 4); the claimed order "build the command string, then
dial" is false — the code dials first and builds the command inside the
established session. -/
theorem create_dials_before_building_command :
    ((crudTrace CrudOp.create envAllOk configEx dEx).map Event.kind).indexOf
        EventKind.dial = 2
  ∧ ((crudTrace CrudOp.create envAllOk configEx dEx).map Event.kind).indexOf
        EventKind.genCommand = 4 := by decide

/-- C7 (amended): field validation is performed by the framework before the
operation runs; within every CRUD operation whose external steps all
succeed, the effects happen in the order: read and parse the key, dial the
SSH connection, create the session, build the command string, start the
command, wait for completion, then close session and client. -/
theorem crud_step_order (op : CrudOp) (env : Env) (config : ManagementConfig)
    (d : ResourceData) (kb : List Nat) (sg : Signer)
    (h1 : env.readFile config.AuthenticationKeyPath = Except.ok kb)
    (h2 : env.parsePrivateKey kb = Except.ok sg)
    (h3 : env.dialOk (dialAddress config.Server) = none)
    (h4 : env.newSessionOk = none)
    (h5 : ∀ c, env.startOk c = none)
    (h6 : env.waitOk = none) :
    ∃ cmd, generateCommand d op.method = Except.ok cmd
      ∧ crudTrace op env config d =
        [Event.readKeyFile config.AuthenticationKeyPath, Event.parseKey kb,
         Event.dial "tcp" (dialAddress config.Server)
           { user := "automate", auth := [AuthMethod.publicKeys sg],
             hostKeyCallback := HostKeyCallback.insecureIgnoreHostKey, timeoutSeconds := 5 },
         Event.newSession, Event.genCommand op.method, Event.startCmd cmd,
         Event.waitCmd, Event.closeSession, Event.closeClient] := by
  cases op <;>
    simp [crudTrace, runCrud, resourceFirewallGroupCreate, resourceFirewallGroupRead,
      resourceFirewallGroupDelete, setupSSHConnection, runResourceFirewallGroupsTask,
      CrudOp.method, generateCommand, h1, h2, h3, h4, h5, h6]

/-- Witness for C7 (amended) at a concrete all-success run. -/
theorem crud_step_order_witness :
    envAllOk.readFile configEx.AuthenticationKeyPath = Except.ok [1]
  ∧ ∃ cmd, generateCommand dEx CrudOp.create.method = Except.ok cmd
      ∧ crudTrace CrudOp.create envAllOk configEx dEx =
        [Event.readKeyFile configEx.AuthenticationKeyPath, Event.parseKey [1],
         Event.dial "tcp" (dialAddress configEx.Server)
           { user := "automate", auth := [AuthMethod.publicKeys ⟨[2]⟩],
             hostKeyCallback := HostKeyCallback.insecureIgnoreHostKey, timeoutSeconds := 5 },
         Event.newSession, Event.genCommand CrudOp.create.method, Event.startCmd cmd,
         Event.waitCmd, Event.closeSession, Event.closeClient] :=
  ⟨rfl, crud_step_order CrudOp.create envAllOk configEx dEx [1] ⟨[2]⟩
    rfl rfl rfl rfl (fun _ => rfl) rfl⟩

/-! ## Helper lemmas for the CRUD case analyses -/

/-- The state written on the success path of each CRUD entry point. -/
def crudSuccessState : CrudOp → Env → ResourceData → ResourceData
  | .create, env, d => { d with id := uuidNewString env.uuidEntropy }
  | .read, _, d => d
  | .delete, _, d => { d with id := "" }

/-- Every CRUD entry point is the common connect-run-close shape,
specialised to its method and success-state update. -/
lemma crud_as_common (op : CrudOp) (env : Env) (config : ManagementConfig)
    (d : ResourceData) :
    runCrud op env config d =
      (match setupSSHConnection env config with
       | (.error e, tr) => ([e], d, tr)
       | (.ok client, tr) =>
         match runResourceFirewallGroupsTask env client d op.method with
         | (.error e, tr2) => ([e], d, tr ++ tr2 ++ [Event.closeClient])
         | (.ok _, tr2) =>
           ([], crudSuccessState op env d, tr ++ tr2 ++ [Event.closeClient])) := by
  cases op <;> rfl

/-- `runResourceFirewallGroupsTask`, rewritten for a method whose command
generation succeeds. -/
lemma runTask_eq_of_ok (env : Env) (client : SSHClient) (d : ResourceData)
    (m cmd : String) (hgc : generateCommand d m = Except.ok cmd) :
    runResourceFirewallGroupsTask env client d m =
      (match env.newSessionOk with
       | some e => (Except.error ("error creating SSH session: " ++ e), [Event.newSession])
       | none =>
         match env.startOk cmd with
         | some e =>
           (Except.error ("error starting command: " ++ e ++ ", stderr: "
               ++ env.stderrContent ++ ", stdout: " ++ env.stdoutContent),
             [Event.newSession, Event.genCommand m, Event.startCmd cmd, Event.closeSession])
         | none =>
           match env.waitOk with
           | some e =>
             (Except.error ("error waiting for command completion: " ++ e ++ ", stderr: "
                 ++ env.stderrContent ++ ", stdout: " ++ env.stdoutContent),
               [Event.newSession, Event.genCommand m, Event.startCmd cmd,
                 Event.waitCmd, Event.closeSession])
           | none =>
             (Except.ok (),
               [Event.newSession, Event.genCommand m, Event.startCmd cmd,
                 Event.waitCmd, Event.closeSession])) := by
  unfold runResourceFirewallGroupsTask
  cases env.newSessionOk with
  | none => rw [hgc]
  | some e => rfl

/-- The method of every CRUD entry point generates a command. -/
lemma crudOp_generateCommand_ok (op : CrudOp) (d : ResourceData) :
    ∃ c, generateCommand d op.method = Except.ok c := by
  cases op <;> exact ⟨_, rfl⟩

/-- `generateCommand` succeeds exactly on the methods "add", "remove",
"read". -/
lemma generateCommand_ok_iff (d : ResourceData) (m : String) :
    (∃ c, generateCommand d m = Except.ok c) ↔ (m = "add" ∨ m = "remove" ∨ m = "read") := by
  constructor
  · rintro ⟨c, hc⟩
    by_cases h : m = "add" ∨ m = "remove"
    · tauto
    · by_cases h' : m = "read"
      · tauto
      · simp [generateCommand, h, h'] at hc
  · intro h
    rcases h with h | h | h <;> subst h <;> exact ⟨_, rfl⟩

/-- `generateCommand` on an unsupported method returns exactly the
"method not supported" error. -/
lemma generateCommand_unsupported (d : ResourceData) (m : String)
    (h1 : m ≠ "add") (h2 : m ≠ "remove") (h3 : m ≠ "read") :
    generateCommand d m = Except.error ("method not supported: " ++ m) := by
  simp [generateCommand, h1, h2, h3]

/-- An unsupported method makes `runResourceFirewallGroupsTask` fail with
the wrapped "error executing command" message. -/
lemma runTask_unsupported (env : Env) (client : SSHClient) (d : ResourceData)
    (m : String) (h1 : m ≠ "add") (h2 : m ≠ "remove") (h3 : m ≠ "read")
    (hsess : env.newSessionOk = none) :
    (runResourceFirewallGroupsTask env client d m).1 =
      Except.error ("error executing command: " ++ ("method not supported: " ++ m)) := by
  unfold runResourceFirewallGroupsTask
  rw [hsess, generateCommand_unsupported d m h1 h2 h3]

/-- C6: every CRUD operation dials at most one SSH connection; every dialed
connection uses TCP to the computed dial address with user "automate",
public-key authentication with the signer parsed from the configured key
path, host-key verification disabled and a 5-second timeout; whenever the
dial succeeds the connection is closed as the final effect before
returning; at most one remote command is started; and a fully successful
operation performs exactly the nine effects read-key, parse-key, dial,
new-session, build-command, start, wait, close-session, close-client, in
that order. -/
theorem crud_single_connection (op : CrudOp) (env : Env) (config : ManagementConfig)
    (d : ResourceData) :
    ((crudTrace op env config d).map Event.kind).count EventKind.dial ≤ 1
  ∧ (∀ n a c, Event.dial n a c ∈ crudTrace op env config d →
      n = "tcp" ∧ a = dialAddress config.Server ∧ c.user = "automate"
      ∧ c.hostKeyCallback = HostKeyCallback.insecureIgnoreHostKey ∧ c.timeoutSeconds = 5
      ∧ ∃ kb sg, env.readFile config.AuthenticationKeyPath = Except.ok kb
          ∧ env.parsePrivateKey kb = Except.ok sg ∧ c.auth = [AuthMethod.publicKeys sg])
  ∧ (∀ n a c, Event.dial n a c ∈ crudTrace op env config d → env.dialOk a = none →
      (crudTrace op env config d).getLast? = some Event.closeClient)
  ∧ ((crudTrace op env config d).map Event.kind).count EventKind.startCmd ≤ 1
  ∧ (crudDiags op env config d = [] →
      (crudTrace op env config d).map Event.kind =
        [EventKind.readKeyFile, EventKind.parseKey, EventKind.dial, EventKind.newSession,
         EventKind.genCommand, EventKind.startCmd, EventKind.waitCmd,
         EventKind.closeSession, EventKind.closeClient]) := by
  obtain ⟨cmd0, hcmd⟩ := crudOp_generateCommand_ok op d
  simp only [crudTrace, crudDiags, crud_as_common op env config d, setupSSHConnection]
  cases h1 : env.readFile config.AuthenticationKeyPath with
  | error e => simp_all [Event.kind]
  | ok kb =>
    simp only [h1]
    cases h2 : env.parsePrivateKey kb with
    | error e => simp_all [Event.kind]
    | ok sg =>
      simp only [h2]
      cases h3 : env.dialOk (dialAddress config.Server) with
      | some e => simp_all [Event.kind]
      | none =>
        simp only [h3]
        rw [runTask_eq_of_ok env _ d op.method cmd0 hcmd]
        cases h4 : env.newSessionOk with
        | some e => simp_all [Event.kind]
        | none =>
          simp only [h4]
          cases h5 : env.startOk cmd0 with
          | some e => simp_all [Event.kind]
          | none =>
            simp only [h5]
            cases h6 : env.waitOk with
            | some e => simp_all [Event.kind]
            | none => simp_all [Event.kind]

/-- Witness for C6: a fully successful concrete creation, exhibiting the
nine effects in order and an empty diagnostics list. -/
theorem crud_single_connection_witness :
    crudDiags CrudOp.create envAllOk configEx dEx = []
  ∧ (crudTrace CrudOp.create envAllOk configEx dEx).map Event.kind =
      [EventKind.readKeyFile, EventKind.parseKey, EventKind.dial, EventKind.newSession,
       EventKind.genCommand, EventKind.startCmd, EventKind.waitCmd,
       EventKind.closeSession, EventKind.closeClient] :=
  ⟨rfl, (crud_single_connection CrudOp.create envAllOk configEx dEx).2.2.2.2 rfl⟩

/-- C3: every failing step — key-file read, key parse, dial, session
creation, command start or command wait — makes the CRUD operation return,
after a single attempt of each effect (the trace holds no repeated effect
kind), exactly one diagnostic carrying the step's error wrapped in its
context message (the dial error is surfaced verbatim); and command
generation fails exactly on methods other than "add", "remove", "read",
which an established session wraps as an "error executing command"
failure. -/
theorem crud_error_handling (op : CrudOp) (env : Env) (config : ManagementConfig)
    (d : ResourceData) :
    (crudDiags op env config d = [] ∨ ∃ e, crudDiags op env config d = [e])
  ∧ ((crudTrace op env config d).map Event.kind).Nodup
  ∧ (∀ e, env.readFile config.AuthenticationKeyPath = Except.error e →
      crudDiags op env config d = ["failed to load private key: " ++ e])
  ∧ (∀ kb, env.readFile config.AuthenticationKeyPath = Except.ok kb →
      ∀ e, env.parsePrivateKey kb = Except.error e →
      crudDiags op env config d = ["failed to parse private key: " ++ e])
  ∧ (∀ kb, env.readFile config.AuthenticationKeyPath = Except.ok kb →
      ∀ sg, env.parsePrivateKey kb = Except.ok sg →
      ∀ e, env.dialOk (dialAddress config.Server) = some e →
      crudDiags op env config d = [e])
  ∧ (∀ kb, env.readFile config.AuthenticationKeyPath = Except.ok kb →
      ∀ sg, env.parsePrivateKey kb = Except.ok sg →
      env.dialOk (dialAddress config.Server) = none →
      ∀ e, env.newSessionOk = some e →
      crudDiags op env config d = ["error creating SSH session: " ++ e])
  ∧ (∀ kb, env.readFile config.AuthenticationKeyPath = Except.ok kb →
      ∀ sg, env.parsePrivateKey kb = Except.ok sg →
      env.dialOk (dialAddress config.Server) = none →
      env.newSessionOk = none →
      ∀ cmd, generateCommand d op.method = Except.ok cmd →
      ∀ e, env.startOk cmd = some e →
      crudDiags op env config d =
        ["error starting command: " ++ e ++ ", stderr: " ++ env.stderrContent
          ++ ", stdout: " ++ env.stdoutContent])
  ∧ (∀ kb, env.readFile config.AuthenticationKeyPath = Except.ok kb →
      ∀ sg, env.parsePrivateKey kb = Except.ok sg →
      env.dialOk (dialAddress config.Server) = none →
      env.newSessionOk = none →
      ∀ cmd, generateCommand d op.method = Except.ok cmd →
      env.startOk cmd = none →
      ∀ e, env.waitOk = some e →
      crudDiags op env config d =
        ["error waiting for command completion: " ++ e ++ ", stderr: "
          ++ env.stderrContent ++ ", stdout: " ++ env.stdoutContent])
  ∧ (∀ m, (∃ c, generateCommand d m = Except.ok c) ↔ (m = "add" ∨ m = "remove" ∨ m = "read"))
  ∧ (∀ client m, m ≠ "add" → m ≠ "remove" → m ≠ "read" → env.newSessionOk = none →
      (runResourceFirewallGroupsTask env client d m).1 =
        Except.error ("error executing command: " ++ ("method not supported: " ++ m))) := by
  have main : (crudDiags op env config d = [] ∨ ∃ e, crudDiags op env config d = [e])
    ∧ ((crudTrace op env config d).map Event.kind).Nodup
    ∧ (∀ e, env.readFile config.AuthenticationKeyPath = Except.error e →
        crudDiags op env config d = ["failed to load private key: " ++ e])
    ∧ (∀ kb, env.readFile config.AuthenticationKeyPath = Except.ok kb →
        ∀ e, env.parsePrivateKey kb = Except.error e →
        crudDiags op env config d = ["failed to parse private key: " ++ e])
    ∧ (∀ kb, env.readFile config.AuthenticationKeyPath = Except.ok kb →
        ∀ sg, env.parsePrivateKey kb = Except.ok sg →
        ∀ e, env.dialOk (dialAddress config.Server) = some e →
        crudDiags op env config d = [e])
    ∧ (∀ kb, env.readFile config.AuthenticationKeyPath = Except.ok kb →
        ∀ sg, env.parsePrivateKey kb = Except.ok sg →
        env.dialOk (dialAddress config.Server) = none →
        ∀ e, env.newSessionOk = some e →
        crudDiags op env config d = ["error creating SSH session: " ++ e])
    ∧ (∀ kb, env.readFile config.AuthenticationKeyPath = Except.ok kb →
        ∀ sg, env.parsePrivateKey kb = Except.ok sg →
        env.dialOk (dialAddress config.Server) = none →
        env.newSessionOk = none →
        ∀ cmd, generateCommand d op.method = Except.ok cmd →
        ∀ e, env.startOk cmd = some e →
        crudDiags op env config d =
          ["error starting command: " ++ e ++ ", stderr: " ++ env.stderrContent
            ++ ", stdout: " ++ env.stdoutContent])
    ∧ (∀ kb, env.readFile config.AuthenticationKeyPath = Except.ok kb →
        ∀ sg, env.parsePrivateKey kb = Except.ok sg →
        env.dialOk (dialAddress config.Server) = none →
        env.newSessionOk = none →
        ∀ cmd, generateCommand d op.method = Except.ok cmd →
        env.startOk cmd = none →
        ∀ e, env.waitOk = some e →
        crudDiags op env config d =
          ["error waiting for command completion: " ++ e ++ ", stderr: "
            ++ env.stderrContent ++ ", stdout: " ++ env.stdoutContent]) := by
    obtain ⟨cmd0, hcmd⟩ := crudOp_generateCommand_ok op d
    simp only [crudTrace, crudDiags, crud_as_common op env config d, setupSSHConnection]
    cases h1 : env.readFile config.AuthenticationKeyPath with
    | error e => simp_all [Event.kind]
    | ok kb =>
      simp only [h1]
      cases h2 : env.parsePrivateKey kb with
      | error e => simp_all [Event.kind]
      | ok sg =>
        simp only [h2]
        cases h3 : env.dialOk (dialAddress config.Server) with
        | some e => simp_all [Event.kind]
        | none =>
          simp only [h3]
          rw [runTask_eq_of_ok env _ d op.method cmd0 hcmd]
          cases h4 : env.newSessionOk with
          | some e => simp_all [Event.kind]
          | none =>
            simp only [h4]
            cases h5 : env.startOk cmd0 with
            | some e => simp_all [Event.kind]
            | none =>
              simp only [h5]
              cases h6 : env.waitOk with
              | some e => simp_all [Event.kind]
              | none => simp_all [Event.kind]
  exact ⟨main.1, main.2.1, main.2.2.1, main.2.2.2.1, main.2.2.2.2.1, main.2.2.2.2.2.1,
    main.2.2.2.2.2.2.1, main.2.2.2.2.2.2.2, generateCommand_ok_iff d,
    fun client m hm1 hm2 hm3 hsess => runTask_unsupported env client d m hm1 hm2 hm3 hsess⟩

/-- Witness for C3: a concrete run whose key-file read fails, returning the
single wrapped diagnostic; and a concrete unsupported method rejected by
command generation. -/
theorem crud_error_handling_witness :
    envReadFail.readFile configEx.AuthenticationKeyPath = Except.error "boom"
  ∧ crudDiags CrudOp.create envReadFail configEx dEx
      = ["failed to load private key: " ++ "boom"]
  ∧ ((∃ c, generateCommand dEx "update" = Except.ok c)
      ↔ ("update" = "add" ∨ "update" = "remove" ∨ "update" = "read")) :=
  ⟨rfl,
    (crud_error_handling CrudOp.create envReadFail configEx dEx).2.2.1 "boom" rfl,
    (crud_error_handling CrudOp.create envReadFail configEx dEx).2.2.2.2.2.2.2.2.1 "update"⟩

/-! ## Equivalence of the embedded regex matchers with the documented
formats -/

/-- The group_name matcher accepts exactly the documented format. -/
lemma groupNameRegexMatch_iff (s : String) :
    groupNameRegexMatch s = true ↔ GroupNameConforming s := by
  simp [groupNameRegexMatch, GroupNameConforming, isGroupNameChar, List.isEmpty_iff,
    Char.le_def]

/-- The hostname matcher accepts exactly the documented format. -/
lemma hostnameRegexMatch_iff (s : String) :
    hostnameRegexMatch s = true ↔ HostnameConforming s := by
  simp [hostnameRegexMatch, HostnameConforming, isHostnameChar, List.isEmpty_iff,
    Char.le_def, or_assoc]

/-- Splitting a list that starts with a run of `p`-true elements followed by
a `p`-false element. -/
lemma takeWhile_all_cons_neg (p : Char → Bool) (a : List Char) (b : Char)
    (t : List Char) (ha : ∀ x ∈ a, p x = true) (hb : p b = false) :
    (a ++ b :: t).takeWhile p = a ∧ (a ++ b :: t).dropWhile p = b :: t := by
  induction a with
  | nil =>
    simp [List.takeWhile_cons_of_neg, List.dropWhile_cons_of_neg, hb]
  | cons x xs ih =>
    have hx : p x = true := ha x (List.mem_cons_self x xs)
    have hxs := ih (fun y hy => ha y (List.mem_cons_of_mem x hy))
    simp [List.takeWhile_cons_of_pos, List.dropWhile_cons_of_pos, hx, hxs.1, hxs.2]

/-- Characterisation of one `\d+\.` matching step. -/
lemma matchDigitsDot_eq_some_iff (l t : List Char) :
    matchDigitsDot l = some t ↔
      ∃ a, a ≠ [] ∧ (∀ x ∈ a, isDigitChar x = true) ∧ l = a ++ '.' :: t := by
  constructor
  · intro h
    simp only [matchDigitsDot] at h
    split at h
    · exact absurd h (by simp)
    · rename_i hne
      split at h
      · rename_i t1 hdw
        obtain rfl : t1 = t := by injection h
        refine ⟨l.takeWhile isDigitChar, ?_, ?_, ?_⟩
        · intro hnil
          rw [hnil] at hne
          exact hne rfl
        · intro x hx
          exact List.mem_takeWhile_imp hx
        · rw [← hdw]
          exact (List.takeWhile_append_dropWhile isDigitChar l).symm
      · cases h
  · rintro ⟨a, hne, hdig, rfl⟩
    obtain ⟨htw, hdw⟩ := takeWhile_all_cons_neg isDigitChar a '.' t hdig (by decide)
    simp only [matchDigitsDot, htw, hdw]
    rw [if_neg]
    simp [List.isEmpty_iff, hne]

/-- The ip_address matcher accepts exactly the documented dotted-quad
format. -/
lemma ipRegexMatch_iff (s : String) :
    ipRegexMatch s = true ↔ IpConforming s := by
  constructor
  · intro h
    simp only [ipRegexMatch] at h
    cases hm1 : matchDigitsDot s.data with
    | none => simp only [hm1] at h; exact absurd h (by simp)
    | some r1 =>
    simp only [hm1] at h
    cases hm2 : matchDigitsDot r1 with
    | none => simp only [hm2] at h; exact absurd h (by simp)
    | some r2 =>
    simp only [hm2] at h
    cases hm3 : matchDigitsDot r2 with
    | none => simp only [hm3] at h; exact absurd h (by simp)
    | some r3 =>
    simp only [hm3] at h
    simp only [Bool.and_eq_true, Bool.not_eq_true', List.all_eq_true] at h
    obtain ⟨a, ha1, ha2, hla⟩ := (matchDigitsDot_eq_some_iff _ _).mp hm1
    obtain ⟨b, hb1, hb2, hlb⟩ := (matchDigitsDot_eq_some_iff _ _).mp hm2
    obtain ⟨c, hc1, hc2, hlc⟩ := (matchDigitsDot_eq_some_iff _ _).mp hm3
    refine ⟨a, b, c, r3, ha1, hb1, hc1, ?_, ha2, hb2, hc2, h.2, ?_⟩
    · intro hnil
      rw [hnil] at h
      exact absurd h.1 (by simp)
    · rw [hla, hlb, hlc]
      simp
  · rintro ⟨a, b, c, dd, ha, hb, hc, hd, hda, hdb, hdc, hdd, heq⟩
    have h1 : matchDigitsDot s.data = some (b ++ '.' :: c ++ '.' :: dd) := by
      refine (matchDigitsDot_eq_some_iff _ _).mpr ⟨a, ha, hda, ?_⟩
      rw [heq]; simp
    have h2 : matchDigitsDot (b ++ '.' :: c ++ '.' :: dd) = some (c ++ '.' :: dd) :=
      (matchDigitsDot_eq_some_iff _ _).mpr ⟨b, hb, hdb, by simp⟩
    have h3 : matchDigitsDot (c ++ '.' :: dd) = some dd :=
      (matchDigitsDot_eq_some_iff _ _).mpr ⟨c, hc, hdc, by simp⟩
    simp only [ipRegexMatch, h1, h2, h3, Bool.and_eq_true, Bool.not_eq_true',
      List.all_eq_true]
    exact ⟨by simp [List.isEmpty_iff, hd], hdd⟩

/-- C2: each of the three field validators returns no errors on every string
conforming to its documented format (group_name matching `[A-Z_]+`, hostname
matching `[a-z.-]+`, ip_address a dotted-quad of digit runs) and a non-empty
error list on every non-conforming string. -/
theorem validators_match_documented_formats (s k : String) :
    (GroupNameConforming s → (groupNameValidateFunc s k).2 = [])
  ∧ (¬ GroupNameConforming s → (groupNameValidateFunc s k).2 ≠ [])
  ∧ (HostnameConforming s → (hostnameValidateFunc s k).2 = [])
  ∧ (¬ HostnameConforming s → (hostnameValidateFunc s k).2 ≠ [])
  ∧ (IpConforming s → (ipAddressValidateFunc s k).2 = [])
  ∧ (¬ IpConforming s → (ipAddressValidateFunc s k).2 ≠ []) := by
  refine ⟨?_, ?_, ?_, ?_, ?_, ?_⟩
  · intro h
    simp [groupNameValidateFunc, (groupNameRegexMatch_iff s).mpr h]
  · intro h
    have hb : groupNameRegexMatch s = false := by
      cases hgb : groupNameRegexMatch s
      · rfl
      · exact absurd ((groupNameRegexMatch_iff s).mp hgb) h
    simp [groupNameValidateFunc, hb]
  · intro h
    simp [hostnameValidateFunc, (hostnameRegexMatch_iff s).mpr h]
  · intro h
    have hb : hostnameRegexMatch s = false := by
      cases hgb : hostnameRegexMatch s
      · rfl
      · exact absurd ((hostnameRegexMatch_iff s).mp hgb) h
    simp [hostnameValidateFunc, hb]
  · intro h
    simp [ipAddressValidateFunc, (ipRegexMatch_iff s).mpr h]
  · intro h
    have hb : ipRegexMatch s = false := by
      cases hgb : ipRegexMatch s
      · rfl
      · exact absurd ((ipRegexMatch_iff s).mp hgb) h
    simp [ipAddressValidateFunc, hb]

/-- Witness for C2: concrete conforming strings pass each validator and
concrete non-conforming strings (a lowercase group name, an uppercase
hostname, an alphabetic octet) are rejected. -/
theorem validators_match_documented_formats_witness :
    (GroupNameConforming "WEB_SERVERS"
      ∧ (groupNameValidateFunc "WEB_SERVERS" "group_name").2 = [])
  ∧ (¬ GroupNameConforming "web"
      ∧ (groupNameValidateFunc "web" "group_name").2 ≠ [])
  ∧ (HostnameConforming "host.example.com"
      ∧ (hostnameValidateFunc "host.example.com" "hostname").2 = [])
  ∧ (¬ HostnameConforming "Host"
      ∧ (hostnameValidateFunc "Host" "hostname").2 ≠ [])
  ∧ (IpConforming "10.0.0.1"
      ∧ (ipAddressValidateFunc "10.0.0.1" "ip_address").2 = [])
  ∧ (¬ IpConforming "10.a.0.1"
      ∧ (ipAddressValidateFunc "10.a.0.1" "ip_address").2 ≠ []) := by
  have hip : IpConforming "10.0.0.1" :=
    ⟨['1', '0'], ['0'], ['0'], ['1'], by decide, by decide, by decide, by decide,
      by decide, by decide, by decide, by decide, by decide⟩
  have hipno : ¬ IpConforming "10.a.0.1" := fun hc =>
    absurd ((ipRegexMatch_iff "10.a.0.1").mpr hc) (by decide)
  refine ⟨⟨by decide, ?_⟩, ⟨by decide, ?_⟩, ⟨by decide, ?_⟩, ⟨by decide, ?_⟩,
    ⟨hip, ?_⟩, ⟨hipno, ?_⟩⟩
  · exact (validators_match_documented_formats "WEB_SERVERS" "group_name").1 (by decide)
  · exact (validators_match_documented_formats "web" "group_name").2.1 (by decide)
  · exact (validators_match_documented_formats "host.example.com" "hostname").2.2.1 (by decide)
  · exact (validators_match_documented_formats "Host" "hostname").2.2.2.1 (by decide)
  · exact (validators_match_documented_formats "10.0.0.1" "ip_address").2.2.2.2.1 hip
  · exact (validators_match_documented_formats "10.a.0.1" "ip_address").2.2.2.2.2 hipno

end Fwautomation
